import Mathlib

/-!
# POS / inventory backend — shallow embedding

Shallow embedding of the inventory-consistency core of a point-of-sale
backend (TypeScript, tRPC + drizzle handlers).  The database state is a
record of lists of rows; each handler becomes a pure function from state and
input to `Except Err (State × result)`.  Handlers that the source wraps in
`db.transaction` return no state on error (the rollback); the lone handler
that issues its statements directly on `db` (`createStockMovement`) also
gets a partial-failure variant, because its two writes auto-commit
independently.

Money values (`numeric(10,2)` columns, JS `number`s) are modelled as `Rat`;
quantities (`integer` columns) as `Int`; row ids as `Nat`.  Non-deterministic
generated strings (`TXN-…`, `PO-…` numbers) are taken as explicit arguments.
Timestamps (`created_at`/`updated_at`/`cancelled_at`) carry no information the
verified properties mention and are omitted from rows.
-/

namespace POS

/-- `movement_type` enum: `'in' | 'out' | 'adjustment'`. -/
inductive MovementType
  | mIn
  | mOut
  | mAdjustment
  deriving DecidableEq, Repr

/-- `reference_type` enum: `'sale' | 'purchase' | 'adjustment'`. -/
inductive RefType
  | sale
  | purchase
  | adjustment
  deriving DecidableEq, Repr

/-- `payment_method` enum. -/
inductive PaymentMethod
  | cash
  | card
  | mixed
  deriving DecidableEq, Repr

/-- `sale_status` enum. -/
inductive SaleStatus
  | completed
  | cancelled
  | refunded
  deriving DecidableEq, Repr

/-- `purchase_status` enum. -/
inductive PurchaseStatus
  | pending
  | completed
  | cancelled
  deriving DecidableEq, Repr

/-- A row of the `products` table (the fields the core handlers read). -/
structure Product where
  id : Nat
  name : String
  is_active : Bool
  stock_quantity : Int
  deriving DecidableEq, Repr

/-- A row of the `stock_movements` ledger table. -/
structure MovementRow where
  product_id : Nat
  movement_type : MovementType
  quantity : Int
  reference_type : Option RefType
  reference_id : Option Nat
  notes : Option String
  created_by : Nat
  deriving DecidableEq, Repr

/-- A row of the `sales` table. -/
structure SaleRow where
  id : Nat
  transaction_number : String
  cashier_id : Nat
  subtotal : Rat
  discount_amount : Rat
  tax_amount : Rat
  total_amount : Rat
  payment_method : PaymentMethod
  amount_paid : Rat
  change_amount : Rat
  status : SaleStatus
  cancelled_by : Option Nat
  cancellation_reason : Option String
  deriving DecidableEq, Repr

/-- A row of the `sale_items` table. -/
structure SaleItemRow where
  sale_id : Nat
  product_id : Nat
  barcode : String
  product_name : String
  quantity : Int
  unit_price : Rat
  total_price : Rat
  deriving DecidableEq, Repr

/-- A row of the `purchases` table. -/
structure PurchaseRow where
  id : Nat
  supplier_id : Nat
  purchase_number : String
  total_amount : Rat
  status : PurchaseStatus
  created_by : Nat
  deriving DecidableEq, Repr

/-- A row of the `purchase_items` table. -/
structure PurchaseItemRow where
  purchase_id : Nat
  product_id : Nat
  quantity : Int
  unit_cost : Rat
  total_cost : Rat
  deriving DecidableEq, Repr

/-- The database state: users and suppliers appear only through existence
checks, so they are kept as lists of ids. -/
structure State where
  users : List Nat
  suppliers : List Nat
  products : List Product
  stock_movements : List MovementRow
  sales : List SaleRow
  sale_items : List SaleItemRow
  purchases : List PurchaseRow
  purchase_items : List PurchaseItemRow
  nextSaleId : Nat
  nextPurchaseId : Nat
  deriving DecidableEq, Repr

/-- `cartItemSchema`: zod-validated sale line item. -/
structure CartItem where
  product_id : Nat
  barcode : String
  product_name : String
  quantity : Int
  unit_price : Rat
  deriving DecidableEq, Repr

/-- `createSaleInputSchema`. -/
structure CreateSaleInput where
  cashier_id : Nat
  items : List CartItem
  discount_amount : Rat
  tax_amount : Rat
  payment_method : PaymentMethod
  amount_paid : Rat
  deriving DecidableEq, Repr

/-- `createStockMovementInputSchema`. -/
structure CreateStockMovementInput where
  product_id : Nat
  movement_type : MovementType
  quantity : Int
  reference_type : Option RefType
  reference_id : Option Nat
  notes : Option String
  created_by : Nat
  deriving DecidableEq, Repr

/-- `cancelSaleInputSchema`. -/
structure CancelSaleInput where
  sale_id : Nat
  cancelled_by : Nat
  cancellation_reason : String
  deriving DecidableEq, Repr

/-- `purchaseItemInputSchema`. -/
structure PurchaseItemInput where
  product_id : Nat
  quantity : Int
  unit_cost : Rat
  deriving DecidableEq, Repr

/-- `createPurchaseInputSchema`. -/
structure CreatePurchaseInput where
  supplier_id : Nat
  items : List PurchaseItemInput
  created_by : Nat
  deriving DecidableEq, Repr

/-- What `cartItemSchema` accepts: `quantity` positive int, `unit_price` positive. -/
def CartItem.zodValid (it : CartItem) : Prop :=
  0 < it.quantity ∧ 0 < it.unit_price

instance (it : CartItem) : Decidable it.zodValid := by
  unfold CartItem.zodValid; infer_instance

/-- What `createSaleInputSchema` accepts: at least one item, each item valid,
`discount_amount` and `tax_amount` nonnegative, `amount_paid` positive. -/
def CreateSaleInput.zodValid (i : CreateSaleInput) : Prop :=
  i.items ≠ [] ∧ (∀ it ∈ i.items, it.zodValid) ∧
    0 ≤ i.discount_amount ∧ 0 ≤ i.tax_amount ∧ 0 < i.amount_paid

instance (i : CreateSaleInput) : Decidable i.zodValid := by
  unfold CreateSaleInput.zodValid; infer_instance

/-- What `purchaseItemInputSchema` accepts: positive int quantity, positive cost. -/
def PurchaseItemInput.zodValid (it : PurchaseItemInput) : Prop :=
  0 < it.quantity ∧ 0 < it.unit_cost

instance (it : PurchaseItemInput) : Decidable it.zodValid := by
  unfold PurchaseItemInput.zodValid; infer_instance

/-- Errors thrown by the handlers (`throw new Error(...)` messages). -/
inductive Err
  | insufficientPayment
  | cashierNotFound
  | productNotFound (product_id : Nat)
  | insufficientStock (product_name : String)
  | productInactive (product_name : String)
  | cancellerNotFound
  | saleNotFound
  | onlyCompletedCanCancel
  | supplierNotFound (supplier_id : Nat)
  deriving DecidableEq, Repr

/-- `db.select().from(productsTable).where(eq(productsTable.id, pid))`, first row. -/
def findProduct (s : State) (pid : Nat) : Option Product :=
  s.products.find? (fun p => p.id == pid)

/-- `UPDATE products SET stock_quantity = q WHERE id = pid`. -/
def setStock (ps : List Product) (pid : Nat) (q : Int) : List Product :=
  ps.map (fun p => if p.id == pid then { p with stock_quantity := q } else p)

/-- `UPDATE products SET stock_quantity = stock_quantity + d WHERE id = pid`
(the in-database arithmetic form used by `createSale` and `cancelSale`). -/
def addStock (ps : List Product) (pid : Nat) (d : Int) : List Product :=
  ps.map (fun p => if p.id == pid then { p with stock_quantity := p.stock_quantity + d } else p)

/-! ## Stock Movement Engine (handlers/stock.ts) -/

/-- The ledger row inserted by `createStockMovement`: the original input
quantity and all supplied metadata, verbatim. -/
def movementRowOfInput (input : CreateStockMovementInput) : MovementRow :=
  { product_id := input.product_id
    movement_type := input.movement_type
    quantity := input.quantity
    reference_type := input.reference_type
    reference_id := input.reference_id
    notes := input.notes
    created_by := input.created_by }

/-- `createStockMovement`: verify the product exists; insert the ledger row;
compute the new stock (`in`: current + q, `out`: current − q, `adjustment`:
current + q), clamp below at 0; update the product row.  The source issues
these as plain `db` statements (no `db.transaction`); this function is the
run in which both statements succeed. -/
def createStockMovement (s : State) (input : CreateStockMovementInput) :
    Except Err (State × MovementRow) :=
  match findProduct s input.product_id with
  | none => .error (.productNotFound input.product_id)
  | some currentProduct =>
    let movement := movementRowOfInput input
    let s1 := { s with stock_movements := s.stock_movements ++ [movement] }
    let candidate : Int :=
      match input.movement_type with
      | .mIn => currentProduct.stock_quantity + input.quantity
      | .mOut => currentProduct.stock_quantity - input.quantity
      | .mAdjustment => currentProduct.stock_quantity + input.quantity
    let newStockQuantity := if candidate < 0 then 0 else candidate
    let s2 := { s1 with products := setStock s1.products input.product_id newStockQuantity }
    .ok (s2, movement)

/-- The persisted state when the product-stock `UPDATE` of
`createStockMovement` fails after the ledger `INSERT` already ran: because
the source wraps neither statement in `db.transaction`, each auto-commits on
its own, so the inserted ledger row survives the failure while the stock is
left unchanged. -/
def createStockMovementUpdateFails (s : State) (input : CreateStockMovementInput) :
    Except Err State :=
  match findProduct s input.product_id with
  | none => .error (.productNotFound input.product_id)
  | some _ => .ok { s with stock_movements := s.stock_movements ++ [movementRowOfInput input] }

/-- JS `notes || null`: an absent or empty string becomes null. -/
def jsNotesOrNull (notes : Option String) : Option String :=
  match notes with
  | none => none
  | some str => if str = "" then none else some str

/-- `adjustStock(productId, newQuantity, userId, notes?)`: read the current
stock, compute the adjustment as the difference, delegate to
`createStockMovement` with movement_type `adjustment`, reference_type
`adjustment`, reference_id null. -/
def adjustStock (s : State) (productId : Nat) (newQuantity : Int) (userId : Nat)
    (notes : Option String) : Except Err (State × MovementRow) :=
  match findProduct s productId with
  | none => .error (.productNotFound productId)
  | some currentProduct =>
    createStockMovement s
      { product_id := productId
        movement_type := .mAdjustment
        quantity := newQuantity - currentProduct.stock_quantity
        reference_type := some .adjustment
        reference_id := none
        notes := jsNotesOrNull notes
        created_by := userId }

/-! ## Sale Transaction Engine (handlers/sales.ts) -/

/-- `input.items.reduce((sum, item) => sum + item.quantity * item.unit_price, 0)`. -/
def saleSubtotal (items : List CartItem) : Rat :=
  items.foldl (fun sum it => sum + (it.quantity : Rat) * it.unit_price) 0

/-- The per-line validation loop of `createSale`, in source order: product
exists, sufficient stock, product active. -/
def checkSaleItems (s : State) : List CartItem → Except Err Unit
  | [] => .ok ()
  | it :: rest =>
    match findProduct s it.product_id with
    | none => .error (.productNotFound it.product_id)
    | some p =>
      if p.stock_quantity < it.quantity then .error (.insufficientStock p.name)
      else if p.is_active = false then .error (.productInactive p.name)
      else checkSaleItems s rest

/-- The ledger row `createSale` appends for one line: movement_type `out`
with the negated quantity. -/
def saleMovementRow (cashierId saleId : Nat) (txn : String) (it : CartItem) : MovementRow :=
  { product_id := it.product_id
    movement_type := .mOut
    quantity := -it.quantity
    reference_type := some .sale
    reference_id := some saleId
    notes := some ("Sale transaction: " ++ txn)
    created_by := cashierId }

/-- The `sale_items` row `createSale` inserts for one line. -/
def saleItemRowOf (saleId : Nat) (it : CartItem) : SaleItemRow :=
  { sale_id := saleId
    product_id := it.product_id
    barcode := it.barcode
    product_name := it.product_name
    quantity := it.quantity
    unit_price := it.unit_price
    total_price := (it.quantity : Rat) * it.unit_price }

/-- The effects loop body of `createSale` for one line: insert the sale
item, `stock_quantity = stock_quantity - quantity` (no floor), append the
`out` movement. -/
def applySaleLine (cashierId saleId : Nat) (txn : String) (s : State) (it : CartItem) : State :=
  let s1 := { s with sale_items := s.sale_items ++ [saleItemRowOf saleId it] }
  let s2 := { s1 with products := addStock s1.products it.product_id (-it.quantity) }
  { s2 with stock_movements := s2.stock_movements ++ [saleMovementRow cashierId saleId txn it] }

/-- `createSale` (handlers/sales.ts), one `db.transaction`: compute totals;
check payment, then cashier existence, then the per-line loop; insert the
sale header, then per line insert the item, decrement stock and append the
movement.  `txn` stands for the generated `TXN-…` transaction number. -/
def createSale (s : State) (txn : String) (input : CreateSaleInput) :
    Except Err (State × SaleRow) :=
  let subtotal := saleSubtotal input.items
  let totalAmount := subtotal - input.discount_amount + input.tax_amount
  let changeAmount := input.amount_paid - totalAmount
  if input.amount_paid < totalAmount then .error .insufficientPayment
  else if s.users.contains input.cashier_id = false then .error .cashierNotFound
  else
    match checkSaleItems s input.items with
    | .error e => .error e
    | .ok _ =>
      let sale : SaleRow :=
        { id := s.nextSaleId
          transaction_number := txn
          cashier_id := input.cashier_id
          subtotal := subtotal
          discount_amount := input.discount_amount
          tax_amount := input.tax_amount
          total_amount := totalAmount
          payment_method := input.payment_method
          amount_paid := input.amount_paid
          change_amount := changeAmount
          status := .completed
          cancelled_by := none
          cancellation_reason := none }
      let s0 := { s with sales := s.sales ++ [sale], nextSaleId := s.nextSaleId + 1 }
      let s1 := input.items.foldl (applySaleLine input.cashier_id sale.id txn) s0
      .ok (s1, sale)

/-! ## Sale Cancellation Engine (handlers/sales.ts) -/

/-- The restoring ledger row `cancelSale` appends for one persisted sale
item: movement_type `in` with the positive quantity. -/
def cancelMovementRow (cancelledBy saleId : Nat) (note : String) (it : SaleItemRow) : MovementRow :=
  { product_id := it.product_id
    movement_type := .mIn
    quantity := it.quantity
    reference_type := some .sale
    reference_id := some saleId
    notes := some note
    created_by := cancelledBy }

/-- The restore loop body of `cancelSale` for one sale item:
`stock_quantity = stock_quantity + quantity`, then append the `in` movement. -/
def applyCancelLine (cancelledBy saleId : Nat) (note : String) (s : State) (it : SaleItemRow) :
    State :=
  let s1 := { s with products := addStock s.products it.product_id it.quantity }
  { s1 with stock_movements := s1.stock_movements ++ [cancelMovementRow cancelledBy saleId note it] }

/-- `cancelSale`, one `db.transaction`: canceller must exist, sale must
exist, status must be `completed`; restore stock and append an `in` movement
per sale item; mark the sale cancelled. -/
def cancelSale (s : State) (input : CancelSaleInput) : Except Err (State × SaleRow) :=
  if s.users.contains input.cancelled_by = false then .error .cancellerNotFound
  else
    match s.sales.find? (fun sl => sl.id == input.sale_id) with
    | none => .error .saleNotFound
    | some sale =>
      if sale.status ≠ SaleStatus.completed then .error .onlyCompletedCanCancel
      else
        let items := s.sale_items.filter (fun it => it.sale_id == input.sale_id)
        let note := "Sale cancellation: " ++ sale.transaction_number ++ " - "
          ++ input.cancellation_reason
        let s1 := items.foldl (applyCancelLine input.cancelled_by input.sale_id note) s
        let cancelledSale :=
          { sale with
            status := SaleStatus.cancelled
            cancelled_by := some input.cancelled_by
            cancellation_reason := some input.cancellation_reason }
        let s2 :=
          { s1 with
            sales := s1.sales.map (fun sl =>
              if sl.id == input.sale_id then
                { sl with
                  status := SaleStatus.cancelled
                  cancelled_by := some input.cancelled_by
                  cancellation_reason := some input.cancellation_reason }
              else sl) }
        .ok (s2, cancelledSale)

/-! ## Purchase Receipt Engine (handlers/purchases.ts) -/

/-- The product-existence loop of `createPurchase`: the first line whose
product is missing, if any. -/
def firstMissingProduct (s : State) : List PurchaseItemInput → Option Nat
  | [] => none
  | it :: rest =>
    if (findProduct s it.product_id).isNone then some it.product_id
    else firstMissingProduct s rest

/-- `input.items.reduce((sum, item) => sum + item.quantity * item.unit_cost, 0)`. -/
def purchaseTotal (items : List PurchaseItemInput) : Rat :=
  items.foldl (fun sum it => sum + (it.quantity : Rat) * it.unit_cost) 0

/-- The `purchase_items` row for one line. -/
def purchaseItemRowOf (purchaseId : Nat) (it : PurchaseItemInput) : PurchaseItemRow :=
  { purchase_id := purchaseId
    product_id := it.product_id
    quantity := it.quantity
    unit_cost := it.unit_cost
    total_cost := (it.quantity : Rat) * it.unit_cost }

/-- The stock loop body of `createPurchase` for one line: re-read the
current stock, set it to current + quantity, append the `in` movement.  (The
existence precheck guarantees the lookup succeeds; a missing product would
make the source crash, so that branch is unreachable after the check.) -/
def applyPurchaseLine (createdBy purchaseId : Nat) (purchaseNumber : String) (s : State)
    (it : PurchaseItemInput) : State :=
  match findProduct s it.product_id with
  | none => s
  | some currentProduct =>
    let s1 := { s with
      products := setStock s.products it.product_id (currentProduct.stock_quantity + it.quantity) }
    { s1 with stock_movements := s1.stock_movements ++
        [{ product_id := it.product_id
           movement_type := .mIn
           quantity := it.quantity
           reference_type := some .purchase
           reference_id := some purchaseId
           notes := some ("Purchase " ++ purchaseNumber)
           created_by := createdBy }] }

/-- `createPurchase` (handlers/purchases.ts): supplier existence check, then
per-line product existence checks — both before any write — then insert the
purchase header (status `completed`), the purchase items, and per line the
stock update plus `in` movement.  `purchaseNumber` stands for the generated
`PO-…` number.  The source issues plain `db` statements here (no
transaction), but all checks precede all writes. -/
def createPurchase (s : State) (purchaseNumber : String) (input : CreatePurchaseInput) :
    Except Err (State × PurchaseRow × List PurchaseItemRow) :=
  if s.suppliers.contains input.supplier_id = false then
    .error (.supplierNotFound input.supplier_id)
  else
    match firstMissingProduct s input.items with
    | some pid => .error (.productNotFound pid)
    | none =>
      let totalAmount := purchaseTotal input.items
      let purchase : PurchaseRow :=
        { id := s.nextPurchaseId
          supplier_id := input.supplier_id
          purchase_number := purchaseNumber
          total_amount := totalAmount
          status := .completed
          created_by := input.created_by }
      let itemRows := input.items.map (purchaseItemRowOf purchase.id)
      let s1 := { s with
        purchases := s.purchases ++ [purchase]
        purchase_items := s.purchase_items ++ itemRows
        nextPurchaseId := s.nextPurchaseId + 1 }
      let s2 := input.items.foldl (applyPurchaseLine input.created_by purchase.id purchaseNumber) s1
      .ok (s2, purchase, itemRows)

/-! ## Derived notions used by the statements -/

/-- Structural well-formedness that every database state reachable through
the handlers enjoys: all stocks nonnegative, all persisted sale-item
quantities positive (zod accepts only positive quantities), and product ids
unique (serial primary key). -/
def Wf (s : State) : Prop :=
  (∀ p ∈ s.products, 0 ≤ p.stock_quantity) ∧
    (∀ it ∈ s.sale_items, 0 < it.quantity) ∧
    (s.products.map Product.id).Nodup

instance (s : State) : Decidable (Wf s) := by
  unfold Wf; infer_instance

/-- The error component of a handler outcome, if any. -/
def exceptError {α : Type} : Except Err α → Option Err
  | .error e => some e
  | .ok _ => none

/-- Pending per-product stock deltas `(product_id, delta)`, as produced by
the line loops of `createSale` and `cancelSale`. -/
def applyDeltas (ps : List Product) (ds : List (Nat × Int)) : List Product :=
  ds.foldl (fun acc pd => addStock acc pd.1 pd.2) ps

/-- The total delta a list of pending stock updates applies to one product id. -/
def sumDeltas : List (Nat × Int) → Nat → Int
  | [], _ => 0
  | pd :: rest, pid => (if pd.1 == pid then pd.2 else 0) + sumDeltas rest pid

/-- The per-line precondition order of the amended claim C5, written from
the amended claim's words: product existence, then stock sufficiency, then
product active, first failing line wins. -/
def amendedLineError (s : State) : List CartItem → Option Err
  | [] => none
  | it :: rest =>
    match findProduct s it.product_id with
    | none => some (.productNotFound it.product_id)
    | some p =>
      if p.stock_quantity < it.quantity then some (.insufficientStock p.name)
      else if p.is_active = false then some (.productInactive p.name)
      else amendedLineError s rest

/-- The precondition order of the amended claim C5, written from the amended
claim's words: payment sufficiency first, then cashier existence, then the
per-line checks; the reported error is that of the earliest violated check. -/
def amendedSaleError (s : State) (input : CreateSaleInput) : Option Err :=
  let subtotal := (input.items.map (fun it => (it.quantity : Rat) * it.unit_price)).sum
  if input.amount_paid < subtotal - input.discount_amount + input.tax_amount then
    some .insufficientPayment
  else if input.cashier_id ∈ s.users then amendedLineError s input.items
  else some .cashierNotFound

/-! ## Concrete fixtures for witnesses and counterexamples -/

/-- The signed ledger delta as the spec words it: `+quantity` for `in`,
`−quantity` for `out`, `+quantity` (itself signed) for `adjustment`. -/
def specDelta (mt : MovementType) (q : Int) : Int :=
  match mt with
  | .mIn => q
  | .mOut => -q
  | .mAdjustment => q

/-- A single active product with stock 100. -/
def pW : Product := ⟨1, "P", true, 100⟩

/-- Base fixture state: one user (id 1), one supplier (id 5), product `pW`. -/
def sW : State := ⟨[1], [5], [pW], [], [], [], [], [], 10, 20⟩

/-- Scenario B input: movement `out` of 150 against product 1. -/
def movInputB : CreateStockMovementInput := ⟨1, .mOut, 150, none, none, none, 1⟩

/-- A sale line of 60 units of product 1 at price 1. -/
def dupItem : CartItem := ⟨1, "b", "P", 60, 1⟩

/-- A sale buying product 1 twice in two lines of 60 each (zod accepts it). -/
def dupInput : CreateSaleInput := ⟨1, [dupItem, dupItem], 0, 0, .cash, 120⟩

/-- Fixture with no users at all. -/
def sNoUsers : State := ⟨[], [5], [pW], [], [], [], [], [], 10, 20⟩

/-- A one-unit sale line of product 1 at price 10. -/
def itemOne : CartItem := ⟨1, "b", "P", 1, 10⟩

/-- Underpaying sale input (pays 5 for a 10 total) from a missing cashier. -/
def inputUnderpaid : CreateSaleInput := ⟨1, [itemOne], 0, 0, .cash, 5⟩

/-- Fixture whose only product is inactive with zero stock. -/
def sInactive : State := ⟨[1], [5], [⟨1, "P", false, 0⟩], [], [], [], [], [], 10, 20⟩

/-- Well-paying one-line sale input against the inactive zero-stock product. -/
def inputInactive : CreateSaleInput := ⟨1, [itemOne], 0, 0, .cash, 50⟩

/-- A ten-unit sale line of product 1 at price 8.50. -/
def itemTen : CartItem := ⟨1, "b", "P", 10, (17 : Rat) / 2⟩

/-- Exact-payment one-line sale input (10 × 8.50 = 85). -/
def saleInputW : CreateSaleInput := ⟨1, [itemTen], 0, 0, .cash, 85⟩

/-- Sale input whose discount (200) exceeds subtotal + tax (85). -/
def bigDiscountInput : CreateSaleInput := ⟨1, [itemTen], 200, 0, .cash, 1⟩

/-- Purchase input whose second line names a nonexistent product. -/
def purchMissingInput : CreatePurchaseInput := ⟨5, [⟨1, 2, 3⟩, ⟨99, 1, 4⟩], 1⟩

/-- Fixture with no suppliers at all. -/
def sNoSupp : State := ⟨[1], [], [pW], [], [], [], [], [], 10, 20⟩

/-- The sale header persisted by the duplicate-line sale `dupInput`. -/
def dupSaleRow : SaleRow :=
  ⟨10, "TXN-1", 1, 120, 0, 0, 120, .cash, 120, 0, .completed, none, none⟩

/-- The `out` movement row each duplicate line appends. -/
def dupMovRow : MovementRow :=
  ⟨1, .mOut, -60, some .sale, some 10, some "Sale transaction: TXN-1", 1⟩

/-- The sale-item row each duplicate line inserts. -/
def dupItemRow : SaleItemRow := ⟨10, 1, "b", "P", 60, 1, 60⟩

/-- The state after the duplicate-line sale: stock −20. -/
def sDupNegative : State :=
  ⟨[1], [5], [⟨1, "P", true, -20⟩], [dupMovRow, dupMovRow], [dupSaleRow],
    [dupItemRow, dupItemRow], [], [], 11, 20⟩

/-- The state after `createStockMovement sW movInputB` (stock clamped to 0). -/
def sBclamped : State :=
  ⟨[1], [5], [⟨1, "P", true, 0⟩], [movementRowOfInput movInputB], [], [], [], [], 10, 20⟩

/-- Product 1 after selling 10 of its 100 units. -/
def soldProductW : Product := ⟨1, "P", true, 90⟩

/-- The sale `createSale sW "TXN-9" saleInputW` persists. -/
def completedSaleW : SaleRow :=
  ⟨10, "TXN-9", 1, 85, 0, 0, 85, .cash, 85, 0, .completed, none, none⟩

/-- The sale item that sale persists. -/
def saleItemW : SaleItemRow := ⟨10, 1, "b", "P", 10, (17 : Rat) / 2, 85⟩

/-- The `out` movement that sale appends. -/
def outMovW : MovementRow :=
  ⟨1, .mOut, -10, some .sale, some 10, some "Sale transaction: TXN-9", 1⟩

/-- The state after `createSale sW "TXN-9" saleInputW`. -/
def sAfterSale : State :=
  ⟨[1], [5], [soldProductW], [outMovW], [completedSaleW], [saleItemW], [], [], 11, 20⟩

/-- An already-cancelled sale row. -/
def cancelledSaleW : SaleRow :=
  ⟨10, "TXN-0", 1, 85, 0, 0, 85, .cash, 85, 0, .cancelled, some 1, some "r"⟩

/-- Fixture holding the already-cancelled sale `cancelledSaleW`. -/
def sCancelled : State := ⟨[1], [5], [pW], [], [cancelledSaleW], [], [], [], 11, 20⟩

/-- The `in` movement appended when cancelling `completedSaleW` with reason "why". -/
def inMovW : MovementRow :=
  ⟨1, .mIn, 10, some .sale, some 10, some "Sale cancellation: TXN-9 - why", 1⟩

/-- `completedSaleW` after cancellation by user 1 with reason "why". -/
def cancelledAfterW : SaleRow :=
  ⟨10, "TXN-9", 1, 85, 0, 0, 85, .cash, 85, 0, .cancelled, some 1, some "why"⟩

/-- The state after cancelling `completedSaleW` in `sAfterSale`. -/
def sFinalW : State :=
  ⟨[1], [5], [pW], [outMovW, inMovW], [cancelledAfterW], [saleItemW], [], [], 11, 20⟩

/-! ## Helper lemmas -/

theorem clamp_eq_max (c : Int) : (if c < 0 then 0 else c) = max 0 c := by
  rcases lt_or_le c 0 with h | h
  · simp [h, max_eq_left h.le]
  · simp [not_lt.mpr h, max_eq_right h]

theorem find?_setStock_self (ps : List Product) (pid : Nat) (q : Int) :
    (setStock ps pid q).find? (fun p => p.id == pid) =
      (ps.find? (fun p => p.id == pid)).map (fun p => { p with stock_quantity := q }) := by
  induction ps with
  | nil => rfl
  | cons p rest ih =>
    show List.find? _
        ((if (p.id == pid) = true then { p with stock_quantity := q } else p) :: setStock rest pid q)
      = _
    cases hb : (p.id == pid) with
    | true =>
      simp only [List.find?_cons]
      simp [hb]
    | false =>
      simp only [List.find?_cons]
      rw [hb]
      simpa [hb] using ih

theorem find?_addStock_self (ps : List Product) (pid : Nat) (d : Int) :
    (addStock ps pid d).find? (fun p => p.id == pid) =
      (ps.find? (fun p => p.id == pid)).map
        (fun p => { p with stock_quantity := p.stock_quantity + d }) := by
  induction ps with
  | nil => rfl
  | cons p rest ih =>
    show List.find? _
        ((if (p.id == pid) = true then { p with stock_quantity := p.stock_quantity + d } else p)
          :: addStock rest pid d)
      = _
    cases hb : (p.id == pid) with
    | true =>
      simp only [List.find?_cons]
      simp [hb]
    | false =>
      simp only [List.find?_cons]
      rw [hb]
      simpa [hb] using ih

/-- Exact outcome of `createStockMovement` on an existing product (shared
helper): the ledger grows by the input row and the product's stock becomes
`max 0 (current + delta)`. -/
theorem createStockMovement_eq (s : State) (input : CreateStockMovementInput) (p : Product)
    (hfind : findProduct s input.product_id = some p) :
    createStockMovement s input = .ok
      ({ s with
          stock_movements := s.stock_movements ++ [movementRowOfInput input]
          products := (setStock s.products input.product_id
            (max 0 (p.stock_quantity + specDelta input.movement_type input.quantity))) },
        movementRowOfInput input) := by
  simp only [createStockMovement, hfind]
  cases input.movement_type
  · rw [clamp_eq_max]; rfl
  · rw [clamp_eq_max, sub_eq_add_neg]; rfl
  · rw [clamp_eq_max]; rfl

/-! ## Claim theorems -/

/-- Claim C2: `createStockMovement` on an existing product sets that
product's stock to `max 0 (current + delta)` with delta `+q` for `in`, `−q`
for `out` and `+q` for `adjustment`; the clamp is silent (still `.ok`); and
the appended ledger row records the original quantity argument together with
the supplied reference_type, reference_id, notes and created_by. -/
theorem C2_createStockMovement_spec (s : State) (input : CreateStockMovementInput) (p : Product)
    (hfind : findProduct s input.product_id = some p) :
    ∃ s', createStockMovement s input = .ok (s', movementRowOfInput input) ∧
      s'.stock_movements = s.stock_movements ++ [movementRowOfInput input] ∧
      (movementRowOfInput input).quantity = input.quantity ∧
      (movementRowOfInput input).reference_type = input.reference_type ∧
      (movementRowOfInput input).reference_id = input.reference_id ∧
      (movementRowOfInput input).notes = input.notes ∧
      (movementRowOfInput input).created_by = input.created_by ∧
      findProduct s' input.product_id = some
        { p with stock_quantity :=
            (max 0 (p.stock_quantity + specDelta input.movement_type input.quantity)) } := by
  refine ⟨_, createStockMovement_eq s input p hfind, rfl, rfl, rfl, rfl, rfl, rfl, ?_⟩
  unfold findProduct at *
  simp [find?_setStock_self, hfind]

/-- Witness for C2 at Scenario B: product stock 100, movement `out` of 150:
the stock clamps to 0 and the ledger row records quantity 150. -/
theorem C2_createStockMovement_spec_witness :
    ∃ s', createStockMovement sW movInputB = .ok (s', movementRowOfInput movInputB) ∧
      s'.stock_movements = sW.stock_movements ++ [movementRowOfInput movInputB] ∧
      (movementRowOfInput movInputB).quantity = movInputB.quantity ∧
      (movementRowOfInput movInputB).reference_type = movInputB.reference_type ∧
      (movementRowOfInput movInputB).reference_id = movInputB.reference_id ∧
      (movementRowOfInput movInputB).notes = movInputB.notes ∧
      (movementRowOfInput movInputB).created_by = movInputB.created_by ∧
      findProduct s' movInputB.product_id = some
        { pW with stock_quantity :=
            (max 0 (pW.stock_quantity + specDelta movInputB.movement_type movInputB.quantity)) } :=
  C2_createStockMovement_spec sW movInputB pW (by decide)

/-- Claim C8: `adjustStock` on an existing product records exactly one
movement of type `adjustment` with quantity `target − current stock`,
reference_type `adjustment` and reference_id null; the resulting stock
equals `target` whenever `target ≥ 0`; for `target < 0` the stock floors to
0 (`max 0 target`) while the movement still carries the full delta. -/
theorem C8_adjustStock_spec (s : State) (pid : Nat) (target : Int) (uid : Nat)
    (notes : Option String) (p : Product)
    (hfind : findProduct s pid = some p) :
    ∃ s' m, adjustStock s pid target uid notes = .ok (s', m) ∧
      s'.stock_movements = s.stock_movements ++ [m] ∧
      m.movement_type = .mAdjustment ∧
      m.quantity = target - p.stock_quantity ∧
      m.reference_type = some .adjustment ∧
      m.reference_id = none ∧
      findProduct s' pid = some { p with stock_quantity := (max 0 target) } ∧
      (0 ≤ target → findProduct s' pid = some { p with stock_quantity := target }) := by
  have hkey : p.stock_quantity + specDelta .mAdjustment (target - p.stock_quantity) = target := by
    simp [specDelta]
  simp only [adjustStock, hfind]
  refine ⟨_, _, createStockMovement_eq s _ p hfind, rfl, rfl, rfl, rfl, rfl, ?_, ?_⟩
  · unfold findProduct at *
    simp [find?_setStock_self, hfind, hkey]
  · intro ht
    unfold findProduct at *
    simp [find?_setStock_self, hfind, hkey, max_eq_right ht]

/-- Witness for C8 at Scenario C: stock 100, target 0: the recorded
movement has quantity −100 and the resulting stock is 0. -/
theorem C8_adjustStock_spec_witness :
    ∃ s' m, adjustStock sW 1 0 1 none = .ok (s', m) ∧
      s'.stock_movements = sW.stock_movements ++ [m] ∧
      m.movement_type = .mAdjustment ∧
      m.quantity = 0 - pW.stock_quantity ∧
      m.reference_type = some .adjustment ∧
      m.reference_id = none ∧
      findProduct s' 1 = some { pW with stock_quantity := (max 0 0) } ∧
      (0 ≤ (0 : Int) → findProduct s' 1 = some { pW with stock_quantity := (0 : Int) }) :=
  C8_adjustStock_spec sW 1 0 1 none pW (by decide)

/-- Claim C6 (code bug): `createStockMovement` issues its ledger INSERT and
its stock UPDATE as two separate auto-committed `db` statements (no
`db.transaction` in the source, unlike `createSale`/`cancelSale`); if the
UPDATE fails after the INSERT, the persisted state keeps the new ledger row
while the stock is unchanged, so the two writes are not an atomic unit.
Evaluated at Scenario B's input (stock 100, `out` 150): the partial-failure
state differs both from the untouched state and from the committed state. -/
theorem C6_createStockMovement_not_atomic :
    createStockMovementUpdateFails sW movInputB =
      .ok { sW with stock_movements := [movementRowOfInput movInputB] } ∧
    findProduct { sW with stock_movements := [movementRowOfInput movInputB] } 1 = some pW ∧
    ({ sW with stock_movements := [movementRowOfInput movInputB] } : State) ≠ sW ∧
    (∃ s', createStockMovement sW movInputB = .ok (s', movementRowOfInput movInputB) ∧
      findProduct s' 1 = some { pW with stock_quantity := (0 : Int) }) :=
  ⟨rfl, rfl, by decide, ⟨_, rfl, rfl⟩⟩

/-- Missing any line's product makes the `createPurchase` existence loop
report a missing product id. -/
theorem firstMissingProduct_of_missing (s : State) (items : List PurchaseItemInput)
    (it : PurchaseItemInput) (hmem : it ∈ items)
    (hmiss : findProduct s it.product_id = none) :
    ∃ pid, firstMissingProduct s items = some pid := by
  induction items with
  | nil => cases hmem
  | cons j rest ih =>
    by_cases hj : (findProduct s j.product_id).isNone = true
    · exact ⟨j.product_id, by simp [firstMissingProduct, hj]⟩
    · rcases List.mem_cons.mp hmem with h | h
      · rw [← h] at hj
        simp [hmiss] at hj
      · rcases ih h with ⟨pid, hp⟩
        exact ⟨pid, by simp [firstMissingProduct, hj, hp]⟩

/-- Claim C9: `createPurchase` fails with `SupplierNotFound` when the
supplier does not exist, and with `ProductNotFound` when any line's product
does not exist; both checks run before any write, and on error the
transaction result carries no state change — zero Purchase/PurchaseItem
rows, no movement, no stock change. -/
theorem C9_createPurchase_preconditions (s : State) (pn : String)
    (input : CreatePurchaseInput) :
    (s.suppliers.contains input.supplier_id = false →
      createPurchase s pn input = .error (.supplierNotFound input.supplier_id)) ∧
    (s.suppliers.contains input.supplier_id = true →
      ∀ it ∈ input.items, findProduct s it.product_id = none →
        ∃ pid, createPurchase s pn input = .error (.productNotFound pid)) := by
  constructor
  · intro h
    have h' : input.supplier_id ∉ s.suppliers := by simpa using h
    simp [createPurchase, h']
  · intro h it hmem hmiss
    have h' : input.supplier_id ∈ s.suppliers := by simpa using h
    rcases firstMissingProduct_of_missing s input.items it hmem hmiss with ⟨pid, hp⟩
    exact ⟨pid, by simp [createPurchase, h', hp]⟩

theorem applyDeltas_cons (ps : List Product) (pd : Nat × Int) (ds : List (Nat × Int)) :
    applyDeltas ps (pd :: ds) = applyDeltas (addStock ps pd.1 pd.2) ds := rfl

/-- A run of per-product stock updates acts pointwise: each product gains
the total delta registered against its id. -/
theorem applyDeltas_eq_map (ds : List (Nat × Int)) (ps : List Product) :
    applyDeltas ps ds
      = ps.map (fun p => { p with stock_quantity := p.stock_quantity + sumDeltas ds p.id }) := by
  induction ds generalizing ps with
  | nil =>
    have hfun : (fun p : Product =>
        { p with stock_quantity := p.stock_quantity + sumDeltas [] p.id }) = fun p => p := by
      funext p
      simp [sumDeltas]
    rw [hfun]
    simp [applyDeltas]
  | cons pd rest ih =>
    rw [applyDeltas_cons, ih, addStock, List.map_map]
    congr 1
    funext p
    by_cases h : p.id = pd.1
    · simp [Function.comp, h, sumDeltas, add_assoc]
    · have h' : ¬ pd.1 = p.id := fun e => h e.symm
      simp [Function.comp, h, h', sumDeltas]

/-- The effects loop of `createSale`, characterized: one pending stock
delta, one sale-item row and one `out` movement per line, in input order. -/
theorem foldl_applySaleLine_eq (c sid : Nat) (txn : String) (items : List CartItem) (s : State) :
    items.foldl (applySaleLine c sid txn) s =
      { s with
        products := applyDeltas s.products (items.map (fun it => (it.product_id, -it.quantity)))
        sale_items := s.sale_items ++ items.map (saleItemRowOf sid)
        stock_movements := s.stock_movements ++ items.map (saleMovementRow c sid txn) } := by
  induction items generalizing s with
  | nil => simp [applyDeltas]
  | cons it rest ih =>
    rw [List.foldl_cons, ih]
    simp [applySaleLine, applyDeltas_cons, List.append_assoc]

theorem bool_not_false {b : Bool} (h : ¬ b = false) : b = true := by
  cases b
  · exact absurd rfl h
  · rfl

theorem find?_append_of_none {α : Type} (l1 l2 : List α) (f : α → Bool)
    (h : ∀ x ∈ l1, f x = false) : (l1 ++ l2).find? f = l2.find? f := by
  induction l1 with
  | nil => rfl
  | cons a rest ih =>
    rw [List.cons_append, List.find?_cons_of_neg _ (by simp [h a (by simp)])]
    exact ih (fun x hx => h x (by simp [hx]))

theorem filter_of_none {α : Type} (l : List α) (f : α → Bool)
    (h : ∀ x ∈ l, f x = false) : l.filter f = [] := by
  induction l with
  | nil => rfl
  | cons a rest ih =>
    rw [List.filter_cons_of_neg (by simp [h a (by simp)])]
    exact ih (fun x hx => h x (by simp [hx]))

theorem filter_of_all {α : Type} (l : List α) (f : α → Bool)
    (h : ∀ x ∈ l, f x = true) : l.filter f = l := by
  induction l with
  | nil => rfl
  | cons a rest ih =>
    rw [List.filter_cons_of_pos (h a (by simp))]
    rw [ih (fun x hx => h x (by simp [hx]))]

theorem sumDeltas_nonneg (ds : List (Nat × Int)) (pid : Nat) (h : ∀ d ∈ ds, 0 ≤ d.2) :
    0 ≤ sumDeltas ds pid := by
  induction ds with
  | nil => simp [sumDeltas]
  | cons d rest ih =>
    simp only [sumDeltas]
    refine add_nonneg ?_ (ih (fun j hj => h j (List.mem_cons_of_mem _ hj)))
    by_cases hb : (d.1 == pid) = true
    · simpa [hb] using h d (List.mem_cons_self _ _)
    · simp [hb]

theorem sumDeltas_map_zero {α : Type} (key : α → Nat) (val : α → Int) (items : List α)
    (pid : Nat) (hno : ∀ j ∈ items, key j ≠ pid) :
    sumDeltas (items.map (fun j => (key j, val j))) pid = 0 := by
  induction items with
  | nil => rfl
  | cons j rest ih =>
    simp only [List.map_cons, sumDeltas]
    have hb : (key j == pid) = false := by
      simpa using hno j (by simp)
    rw [if_neg (by simp [hb])]
    rw [ih (fun x hx => hno x (by simp [hx]))]
    rfl

theorem sumDeltas_map_single {α : Type} (key : α → Nat) (val : α → Int) (items : List α)
    (hnd : (items.map key).Nodup) (it : α) (hit : it ∈ items) :
    sumDeltas (items.map (fun j => (key j, val j))) (key it) = val it := by
  induction items with
  | nil => cases hit
  | cons j rest ih =>
    have hnd2 : (key j :: rest.map key).Nodup := by simpa using hnd
    have hnd' := List.nodup_cons.mp hnd2
    rcases List.mem_cons.mp hit with rfl | hmem
    · simp only [List.map_cons, sumDeltas]
      rw [if_pos (by simp)]
      rw [sumDeltas_map_zero key val rest (key it)
        (fun x hx hk => hnd'.1 (hk ▸ List.mem_map_of_mem key hx))]
      exact add_zero _
    · simp only [List.map_cons, sumDeltas]
      have hb : (key j == key it) = false := by
        simp only [beq_eq_false_iff_ne, ne_eq]
        intro he
        exact hnd'.1 (he ▸ List.mem_map_of_mem key hmem)
      rw [if_neg (by simp [hb]), ih hnd'.2 hmem]
      exact zero_add _

theorem sumDeltas_map_neg (ds : List (Nat × Int)) (pid : Nat) :
    sumDeltas (ds.map (fun d => (d.1, -d.2))) pid = - sumDeltas ds pid := by
  induction ds with
  | nil => simp [sumDeltas]
  | cons d rest ih =>
    simp only [List.map_cons, sumDeltas, ih, neg_add]
    congr 1
    split <;> simp

theorem find?_of_nodup_ids {ps : List Product} (hnd : (ps.map Product.id).Nodup)
    {p : Product} (hp : p ∈ ps) :
    ps.find? (fun r => r.id == p.id) = some p := by
  induction ps with
  | nil => cases hp
  | cons q rest ih =>
    have hnd2 : (q.id :: rest.map Product.id).Nodup := by simpa using hnd
    have hnd' := List.nodup_cons.mp hnd2
    rcases List.mem_cons.mp hp with rfl | hmem
    · exact List.find?_cons_of_pos _ (by simp)
    · have hne : (q.id == p.id) = false := by
        simp only [beq_eq_false_iff_ne, ne_eq]
        intro he
        exact hnd'.1 (he ▸ List.mem_map_of_mem Product.id hmem)
      rw [List.find?_cons_of_neg _ (by simp [hne])]
      exact ih hnd'.2 hmem

/-- Folding the subtotal accumulator from `a` adds the mapped sum. -/
theorem saleSubtotal_go (items : List CartItem) (a : Rat) :
    items.foldl (fun sum it => sum + (it.quantity : Rat) * it.unit_price) a
      = a + (items.map (fun it => (it.quantity : Rat) * it.unit_price)).sum := by
  induction items generalizing a with
  | nil => simp
  | cons it rest ih =>
    simp only [List.foldl_cons, List.map_cons, List.sum_cons]
    rw [ih, add_assoc]

/-- The source's `reduce` subtotal equals the mapped sum Σ quantity × unit_price. -/
theorem saleSubtotal_eq_sum (items : List CartItem) :
    saleSubtotal items = (items.map (fun it => (it.quantity : Rat) * it.unit_price)).sum := by
  simpa [saleSubtotal] using saleSubtotal_go items 0

/-- Claim C3: on success `createSale` persists `subtotal = Σ quantity ×
unit_price` computed server-side from the line inputs, `total_amount =
subtotal − discount_amount + tax_amount` and `change_amount = amount_paid −
total_amount`; and whenever `amount_paid < total_amount` the whole
transaction fails with the insufficient-payment error, persisting nothing
(the error outcome carries no state). -/
theorem C3_createSale_totals (s : State) (txn : String) (input : CreateSaleInput) :
    (∀ s' sale, createSale s txn input = .ok (s', sale) →
      sale.subtotal = (input.items.map (fun it => (it.quantity : Rat) * it.unit_price)).sum ∧
      sale.total_amount = sale.subtotal - input.discount_amount + input.tax_amount ∧
      sale.change_amount = sale.amount_paid - sale.total_amount ∧
      sale.amount_paid = input.amount_paid ∧
      s'.sales = s.sales ++ [sale]) ∧
    (input.amount_paid <
        (input.items.map (fun it => (it.quantity : Rat) * it.unit_price)).sum
          - input.discount_amount + input.tax_amount →
      createSale s txn input = .error .insufficientPayment) := by
  constructor
  · intro s' sale h
    simp only [createSale] at h
    split at h
    · cases h
    · split at h
      · cases h
      · split at h
        · cases h
        · rw [Except.ok.injEq, Prod.mk.injEq] at h
          obtain ⟨hs, hsale⟩ := h
          subst hsale
          refine ⟨saleSubtotal_eq_sum input.items, rfl, rfl, rfl, ?_⟩
          rw [← hs, foldl_applySaleLine_eq]
  · intro hlt
    have h1 : input.amount_paid <
        saleSubtotal input.items - input.discount_amount + input.tax_amount := by
      rw [saleSubtotal_eq_sum]; exact hlt
    simp [createSale, h1]

/-- Inversion of a successful `createSale`: the three checks passed, the
persisted sale carries the computed totals with the fresh serial id, and the
final state is the sale header plus the per-line effects. -/
theorem createSale_ok_elim {s : State} {txn : String} {input : CreateSaleInput}
    {s' : State} {sale : SaleRow}
    (h : createSale s txn input = .ok (s', sale)) :
    ¬ (input.amount_paid < saleSubtotal input.items - input.discount_amount + input.tax_amount) ∧
    s.users.contains input.cashier_id = true ∧
    checkSaleItems s input.items = .ok () ∧
    sale.id = s.nextSaleId ∧
    sale.status = SaleStatus.completed ∧
    sale.transaction_number = txn ∧
    s' = { s with
      sales := s.sales ++ [sale]
      nextSaleId := s.nextSaleId + 1
      products := applyDeltas s.products
        (input.items.map (fun it => (it.product_id, -it.quantity)))
      sale_items := s.sale_items ++ input.items.map (saleItemRowOf s.nextSaleId)
      stock_movements := s.stock_movements
        ++ input.items.map (saleMovementRow input.cashier_id s.nextSaleId txn) } := by
  simp only [createSale] at h
  split at h
  · exact absurd h (by simp)
  · rename_i h1
    split at h
    · exact absurd h (by simp)
    · rename_i h2
      split at h
      · exact absurd h (by simp)
      · rename_i u heq
        cases u
        rw [Except.ok.injEq, Prod.mk.injEq] at h
        obtain ⟨hs, hsale⟩ := h
        subst hsale
        refine ⟨h1, bool_not_false h2, heq, rfl, rfl, rfl, ?_⟩
        rw [← hs, foldl_applySaleLine_eq]

/-- The restore loop of `cancelSale`, characterized: one pending stock
delta and one `in` movement per persisted sale item, in order. -/
theorem foldl_applyCancelLine_eq (uid sid : Nat) (note : String) (items : List SaleItemRow)
    (s : State) :
    items.foldl (applyCancelLine uid sid note) s =
      { s with
        products := applyDeltas s.products (items.map (fun it => (it.product_id, it.quantity)))
        stock_movements := s.stock_movements ++ items.map (cancelMovementRow uid sid note) } := by
  induction items generalizing s with
  | nil => simp [applyDeltas]
  | cons it rest ih =>
    rw [List.foldl_cons, ih]
    simp [applyCancelLine, applyDeltas_cons, List.append_assoc]

/-- Inversion of a successful `cancelSale`: the canceller existed, the sale
was found with status `completed`, and the final products and ledger are the
per-item restore effects over the sale's persisted items. -/
theorem cancelSale_ok_elim {s : State} {input : CancelSaleInput} {s' : State} {sl : SaleRow}
    (h : cancelSale s input = .ok (s', sl)) :
    ∃ sale, s.sales.find? (fun r => r.id == input.sale_id) = some sale ∧
      sale.status = SaleStatus.completed ∧
      s'.products = applyDeltas s.products
        ((s.sale_items.filter (fun it => it.sale_id == input.sale_id)).map
          (fun r => (r.product_id, r.quantity))) ∧
      s'.stock_movements = s.stock_movements ++
        (s.sale_items.filter (fun it => it.sale_id == input.sale_id)).map
          (cancelMovementRow input.cancelled_by input.sale_id
            ("Sale cancellation: " ++ sale.transaction_number ++ " - "
              ++ input.cancellation_reason)) := by
  by_cases hu : input.cancelled_by ∈ s.users
  · cases hfind : s.sales.find? (fun r => r.id == input.sale_id) with
    | none => simp [cancelSale, hu, hfind] at h
    | some sale =>
      by_cases hst : sale.status = SaleStatus.completed
      · have hcon : s.users.contains input.cancelled_by = true := by simpa using hu
        simp only [cancelSale, hfind] at h
        rw [if_neg (by simpa using hu), if_neg (not_not_intro hst)] at h
        rw [Except.ok.injEq, Prod.mk.injEq] at h
        obtain ⟨hs, hsl⟩ := h
        refine ⟨sale, rfl, hst, ?_, ?_⟩
        · rw [← hs, foldl_applyCancelLine_eq]
        · rw [← hs, foldl_applyCancelLine_eq]
      · simp [cancelSale, hu, hfind, hst] at h
  · simp [cancelSale, hu] at h

theorem setStock_nonneg {ps : List Product} {pid : Nat} {q : Int}
    (h : ∀ p ∈ ps, 0 ≤ p.stock_quantity) (hq : 0 ≤ q) :
    ∀ p ∈ setStock ps pid q, 0 ≤ p.stock_quantity := by
  intro p hp
  rcases List.mem_map.mp hp with ⟨r, hr, hrp⟩
  by_cases hb : (r.id == pid) = true
  · rw [← hrp]
    simpa [hb] using hq
  · rw [← hrp]
    have hb' : (r.id == pid) = false := by simpa using hb
    simpa [hb'] using h r hr

theorem createStockMovement_nonneg {s : State} {input : CreateStockMovementInput}
    {s' : State} {m : MovementRow}
    (hok : createStockMovement s input = .ok (s', m))
    (h : ∀ p ∈ s.products, 0 ≤ p.stock_quantity) :
    ∀ p ∈ s'.products, 0 ≤ p.stock_quantity := by
  cases hf : findProduct s input.product_id with
  | none =>
    simp only [createStockMovement, hf] at hok
    exact absurd hok (by simp)
  | some p =>
    rw [createStockMovement_eq s input p hf] at hok
    rw [Except.ok.injEq, Prod.mk.injEq] at hok
    obtain ⟨hs, hm⟩ := hok
    rw [← hs]
    exact setStock_nonneg h (le_max_left 0 _)

theorem applyPurchaseLine_nonneg (cby pidn : Nat) (pn : String) (it : PurchaseItemInput)
    {s : State} (h : ∀ p ∈ s.products, 0 ≤ p.stock_quantity) (hq : 0 ≤ it.quantity) :
    ∀ p ∈ (applyPurchaseLine cby pidn pn s it).products, 0 ≤ p.stock_quantity := by
  unfold applyPurchaseLine
  cases hf : findProduct s it.product_id with
  | none => simpa using h
  | some cp =>
    have hcp : cp ∈ s.products := by
      unfold findProduct at hf
      exact List.mem_of_find?_eq_some hf
    exact setStock_nonneg h (add_nonneg (h cp hcp) hq)

theorem foldl_applyPurchaseLine_nonneg (cby pidn : Nat) (pn : String)
    (items : List PurchaseItemInput) :
    ∀ s : State, (∀ p ∈ s.products, 0 ≤ p.stock_quantity) →
      (∀ it ∈ items, 0 ≤ it.quantity) →
      ∀ p ∈ (items.foldl (applyPurchaseLine cby pidn pn) s).products,
        0 ≤ p.stock_quantity := by
  induction items with
  | nil =>
    intro s h _
    simpa using h
  | cons it rest ih =>
    intro s h hq
    rw [List.foldl_cons]
    exact ih _ (applyPurchaseLine_nonneg cby pidn pn it h (hq it (by simp)))
      (fun j hj => hq j (by simp [hj]))

/-- Inversion of a successful `createPurchase`: the final state is the line
loop applied to a state whose products are untouched. -/
theorem createPurchase_ok_products {s : State} {pn : String} {input : CreatePurchaseInput}
    {s' : State} {pr : PurchaseRow} {rows : List PurchaseItemRow}
    (h : createPurchase s pn input = .ok (s', pr, rows)) :
    ∃ s1 : State, s1.products = s.products ∧
      s' = input.items.foldl (applyPurchaseLine input.created_by s.nextPurchaseId pn) s1 := by
  simp only [createPurchase] at h
  split at h
  · exact absurd h (by simp)
  · split at h
    · exact absurd h (by simp)
    · rw [Except.ok.injEq, Prod.mk.injEq] at h
      refine ⟨_, ?_, h.1.symm⟩
      rfl

/-- Validation loop inversion: every line of a sale that passed the checks
names an existing product with sufficient stock and the active flag set. -/
theorem checkSaleItems_ok_mem {s : State} {items : List CartItem}
    (h : checkSaleItems s items = .ok ()) :
    ∀ it ∈ items, ∃ p, findProduct s it.product_id = some p ∧
      it.quantity ≤ p.stock_quantity ∧ p.is_active = true := by
  induction items with
  | nil =>
    intro it hit
    cases hit
  | cons j rest ih =>
    intro it hit
    cases hf : findProduct s j.product_id with
    | none =>
      simp only [checkSaleItems, hf] at h
      exact absurd h (by simp)
    | some p =>
      simp only [checkSaleItems, hf] at h
      by_cases h1 : p.stock_quantity < j.quantity
      · rw [if_pos h1] at h
        exact absurd h (by simp)
      · rw [if_neg h1] at h
        by_cases h2 : p.is_active = false
        · rw [if_pos h2] at h
          exact absurd h (by simp)
        · rw [if_neg h2] at h
          rcases List.mem_cons.mp hit with rfl | hmem
          · refine ⟨p, hf, le_of_not_lt h1, ?_⟩
            cases hb : p.is_active
            · exact absurd hb h2
            · rfl
          · exact ih h it hmem

/-- Counterexample to C1 as stated: a zod-valid sale naming the same
product in two lines of 60 units each passes the per-line stock check
against the stale stock of 100 (the checks run before any update), and the
unfloored per-line decrement then drives the stock to −20, violating the
invariant on a reachable well-formed state. -/
theorem C1_counterexample :
    createSale sW "TXN-1" dupInput = .ok (sDupNegative, dupSaleRow) ∧
    dupInput.zodValid ∧ Wf sW ∧
    findProduct sDupNegative 1 = some ⟨1, "P", true, -20⟩ ∧
    ¬ (0 ≤ (-20 : Int)) := by
  refine ⟨?_, by decide, by decide, by decide, by decide⟩
  norm_num [createSale, saleSubtotal, checkSaleItems, findProduct, applySaleLine,
    saleItemRowOf, saleMovementRow, addStock, sW, pW, dupInput, dupItem,
    sDupNegative, dupSaleRow, dupMovRow, dupItemRow]
  rfl

/-- Claim C1 (amended): from any well-formed state — stocks nonnegative,
persisted sale-item quantities positive, product ids unique, which hold in
every reachable state — each of `createSale` (on zod-valid inputs whose
line items reference pairwise-distinct products), `cancelSale`,
`createPurchase` (zod-valid lines), `createStockMovement` and `adjustStock`
leaves every product's stock_quantity ≥ 0; movements whose delta would
drive a stock negative are floored to 0 rather than rejected. -/
theorem C1_operations_preserve_nonneg_stock (s : State) (hWf : Wf s) :
    (∀ txn input s' sale, input.zodValid →
      (input.items.map (fun it => it.product_id)).Nodup →
      createSale s txn input = .ok (s', sale) →
      ∀ p ∈ s'.products, 0 ≤ p.stock_quantity) ∧
    (∀ input s' sl, cancelSale s input = .ok (s', sl) →
      ∀ p ∈ s'.products, 0 ≤ p.stock_quantity) ∧
    (∀ pn input s' pr rows, (∀ it ∈ input.items, it.zodValid) →
      createPurchase s pn input = .ok (s', pr, rows) →
      ∀ p ∈ s'.products, 0 ≤ p.stock_quantity) ∧
    (∀ input s' m, createStockMovement s input = .ok (s', m) →
      ∀ p ∈ s'.products, 0 ≤ p.stock_quantity) ∧
    (∀ pid q uid notes s' m, adjustStock s pid q uid notes = .ok (s', m) →
      ∀ p ∈ s'.products, 0 ≤ p.stock_quantity) := by
  obtain ⟨hstocks, hitems, hnodup⟩ := hWf
  refine ⟨?_, ?_, ?_, ?_, ?_⟩
  · intro txn input s' sale hvalid hnd hok
    obtain ⟨-, -, hcheck, -, -, -, hs'⟩ := createSale_ok_elim hok
    rw [hs']
    show ∀ p ∈ applyDeltas s.products _, 0 ≤ p.stock_quantity
    rw [applyDeltas_eq_map]
    intro p' hp'
    rcases List.mem_map.mp hp' with ⟨p, hp, hpeq⟩
    rw [← hpeq]
    show 0 ≤ p.stock_quantity +
      sumDeltas (input.items.map (fun it => (it.product_id, -it.quantity))) p.id
    by_cases hex : ∃ it ∈ input.items, it.product_id = p.id
    · rcases hex with ⟨it, hit, hpid⟩
      rw [← hpid]
      rw [sumDeltas_map_single (fun j => j.product_id) (fun j => -j.quantity)
        input.items hnd it hit]
      rcases checkSaleItems_ok_mem hcheck it hit with ⟨p0, hfind0, hq, -⟩
      have hp0 : p0 = p := by
        unfold findProduct at hfind0
        rw [hpid] at hfind0
        rw [find?_of_nodup_ids hnodup hp] at hfind0
        exact (Option.some.inj hfind0).symm
      rw [hp0] at hq
      linarith
    · push_neg at hex
      rw [sumDeltas_map_zero (fun j => j.product_id) (fun j => -j.quantity) input.items p.id
        (fun j hj => hex j hj)]
      simpa using hstocks p hp
  · intro input s' sl hok
    rcases cancelSale_ok_elim hok with ⟨sale, -, -, hprod, -⟩
    rw [hprod, applyDeltas_eq_map]
    intro p' hp'
    rcases List.mem_map.mp hp' with ⟨p, hp, hpeq⟩
    rw [← hpeq]
    show 0 ≤ p.stock_quantity + _
    refine add_nonneg (hstocks p hp) (sumDeltas_nonneg _ _ ?_)
    intro d hd
    rcases List.mem_map.mp hd with ⟨r, hr, hreq⟩
    rw [← hreq]
    exact le_of_lt (hitems r (List.mem_of_mem_filter hr))
  · intro pn input s' pr rows hvalid hok
    rcases createPurchase_ok_products hok with ⟨s1, hs1, hs'⟩
    rw [hs']
    exact foldl_applyPurchaseLine_nonneg _ _ _ _ s1 (by rw [hs1]; exact hstocks)
      (fun it hit => le_of_lt (hvalid it hit).1)
  · intro input s' m hok
    exact createStockMovement_nonneg hok hstocks
  · intro pid q uid notes s' m hok
    cases hf : findProduct s pid with
    | none =>
      simp only [adjustStock, hf] at hok
      exact absurd hok (by simp)
    | some p0 =>
      simp only [adjustStock, hf] at hok
      exact createStockMovement_nonneg hok hstocks

/-- Applying a run of deltas after its pointwise negation restores every
product exactly. -/
theorem applyDeltas_cancel (ps : List Product) (ds : List (Nat × Int)) :
    applyDeltas (applyDeltas ps (ds.map (fun d => (d.1, -d.2)))) ds = ps := by
  rw [applyDeltas_eq_map, applyDeltas_eq_map, List.map_map]
  have hfun : ((fun p : Product =>
        { p with stock_quantity := p.stock_quantity + sumDeltas ds p.id })
      ∘ (fun p : Product =>
        { p with stock_quantity :=
          p.stock_quantity + sumDeltas (ds.map (fun d => (d.1, -d.2))) p.id }))
      = fun p => p := by
    funext p
    simp only [Function.comp]
    rw [sumDeltas_map_neg]
    have hval : p.stock_quantity + -sumDeltas ds p.id + sumDeltas ds p.id
        = p.stock_quantity := by ring
    rw [hval]
  rw [hfun]
  simp

/-- Claim C4: a successful `createSale` followed by a successful
`cancelSale` of that sale restores every product's stock to its pre-sale
value (here: the whole products table is restored — no clamping exists on
this path), and for a single-line sale exactly two ledger rows reference the
sale: one `out` and one `in` movement of equal magnitude.  The freshness
hypotheses say the serial sale id about to be assigned is not yet referenced
anywhere, which every reachable state satisfies. -/
theorem C4_sale_cancel_roundtrip (s : State) (txn : String) (input : CreateSaleInput)
    (uid : Nat) (reason : String) (s1 s2 : State) (sale sl : SaleRow)
    (hfreshItems : ∀ r ∈ s.sale_items, r.sale_id ≠ s.nextSaleId)
    (hfreshMov : ∀ m ∈ s.stock_movements,
      ¬ (m.reference_type = some RefType.sale ∧ m.reference_id = some s.nextSaleId))
    (hok : createSale s txn input = .ok (s1, sale))
    (hcancel : cancelSale s1 ⟨sale.id, uid, reason⟩ = .ok (s2, sl)) :
    s2.products = s.products ∧
    (∀ it, input.items = [it] →
      ∃ o i, s2.stock_movements.filter (fun m =>
          m.reference_type == some RefType.sale && m.reference_id == some sale.id) = [o, i] ∧
        o.movement_type = .mOut ∧ i.movement_type = .mIn ∧
        o.quantity.natAbs = i.quantity.natAbs) := by
  obtain ⟨-, -, -, hid, hstatus, htxn, hs1⟩ := createSale_ok_elim hok
  rcases cancelSale_ok_elim hcancel with ⟨sale', hfind', hstat', hprod, hmov⟩
  dsimp only at hfind' hprod hmov
  have hfilter : s1.sale_items.filter (fun it => it.sale_id == sale.id)
      = input.items.map (saleItemRowOf s.nextSaleId) := by
    rw [hs1]
    show (s.sale_items ++ input.items.map (saleItemRowOf s.nextSaleId)).filter _ = _
    rw [List.filter_append]
    rw [filter_of_none s.sale_items _ (fun r hr => by
      simp only [beq_eq_false_iff_ne, ne_eq]
      rw [hid]
      exact hfreshItems r hr)]
    rw [filter_of_all _ _ (fun r hr => ?_), List.nil_append]
    rcases List.mem_map.mp hr with ⟨it, hit, hreq⟩
    rw [← hreq]
    simp [saleItemRowOf, hid]
  have hs1prod : s1.products = applyDeltas s.products
      (input.items.map (fun it => (it.product_id, -it.quantity))) := by
    rw [hs1]
  have hs1mov : s1.stock_movements = s.stock_movements
      ++ input.items.map (saleMovementRow input.cashier_id s.nextSaleId txn) := by
    rw [hs1]
  constructor
  · rw [hprod, hfilter, hs1prod, List.map_map]
    have hds : (input.items.map (fun it => (it.product_id, -it.quantity)))
        = (input.items.map ((fun r : SaleItemRow => (r.product_id, r.quantity))
            ∘ saleItemRowOf s.nextSaleId)).map (fun d => (d.1, -d.2)) := by
      rw [List.map_map]
      rfl
    rw [hds, applyDeltas_cancel]
  · intro it hone
    refine ⟨saleMovementRow input.cashier_id s.nextSaleId txn it,
      cancelMovementRow uid sale.id
        ("Sale cancellation: " ++ sale'.transaction_number ++ " - " ++ reason)
        (saleItemRowOf s.nextSaleId it), ?_, rfl, rfl, ?_⟩
    · rw [hmov, hfilter, hs1mov, hone]
      simp only [List.map_cons, List.map_nil]
      rw [List.filter_append, List.filter_append]
      rw [filter_of_none s.stock_movements _ (fun m hm => by
        have hno : ¬ (m.reference_type = some RefType.sale
            ∧ m.reference_id = some sale.id) := by
          rw [hid]
          exact hfreshMov m hm
        by_contra hb
        have hb' : (m.reference_type == some RefType.sale
            && m.reference_id == some sale.id) = true := by
          simpa using hb
        rw [Bool.and_eq_true, beq_iff_eq, beq_iff_eq] at hb'
        exact hno hb')]
      rw [filter_of_all _ _ (fun m hm => by
        rcases List.mem_singleton.mp hm with rfl
        simp [saleMovementRow, hid])]
      rw [filter_of_all _ _ (fun m hm => by
        rcases List.mem_singleton.mp hm with rfl
        simp [cancelMovementRow])]
      rfl
    · show (-it.quantity).natAbs = (saleItemRowOf s.nextSaleId it).quantity.natAbs
      simp [saleItemRowOf]

/-- Witness for C4: the 10-unit sale from stock 100 followed by its
cancellation restores the products table, and exactly two ledger rows
reference the sale — the `out` of −10 and the `in` of 10. -/
theorem C4_sale_cancel_roundtrip_witness :
    sFinalW.products = sW.products ∧
    (∃ o i, sFinalW.stock_movements.filter (fun m =>
        m.reference_type == some RefType.sale && m.reference_id == some completedSaleW.id)
        = [o, i] ∧
      o.movement_type = .mOut ∧ i.movement_type = .mIn ∧
      o.quantity.natAbs = i.quantity.natAbs) := by
  have h := C4_sale_cancel_roundtrip sW "TXN-9" saleInputW 1 "why" sAfterSale sFinalW
    completedSaleW cancelledAfterW (by decide) (by decide)
    (by
      norm_num [createSale, saleSubtotal, checkSaleItems, findProduct, applySaleLine,
        saleItemRowOf, saleMovementRow, addStock, sW, pW, saleInputW, itemTen,
        sAfterSale, soldProductW, completedSaleW, saleItemW, outMovW]
      rfl)
    (by
      norm_num [cancelSale, applyCancelLine, addStock, cancelMovementRow, sAfterSale,
        soldProductW, completedSaleW, saleItemW, outMovW, inMovW, cancelledAfterW,
        sFinalW, pW]
      rfl)
  exact ⟨h.1, h.2 itemTen rfl⟩

/-- Witness for C1 at Scenario B's movement: from the well-formed fixture,
the clamped `out` movement of 150 against stock 100 leaves all stocks ≥ 0. -/
theorem C1_operations_preserve_nonneg_stock_witness :
    Wf sW ∧ (∀ p ∈ sBclamped.products, 0 ≤ p.stock_quantity) :=
  ⟨by decide,
   (C1_operations_preserve_nonneg_stock sW (by decide)).2.2.2.1 movInputB sBclamped
     (movementRowOfInput movInputB) rfl⟩

/-- Claim C7: `cancelSale` succeeds only on a sale whose current status is
`completed`; with the canceller present, a sale in any other status is
rejected with the "only completed sales can be cancelled" error, and the
rolled-back transaction leaves sale, stock and ledger unchanged (the error
outcome carries no state). -/
theorem C7_cancelSale_requires_completed (s : State) (input : CancelSaleInput) :
    (∀ s' sl, cancelSale s input = .ok (s', sl) →
      ∃ sale, s.sales.find? (fun r => r.id == input.sale_id) = some sale ∧
        sale.status = SaleStatus.completed) ∧
    (s.users.contains input.cancelled_by = true →
      ∀ sale, s.sales.find? (fun r => r.id == input.sale_id) = some sale →
        sale.status ≠ SaleStatus.completed →
        cancelSale s input = .error .onlyCompletedCanCancel) := by
  constructor
  · intro s' sl h
    by_cases hu : input.cancelled_by ∈ s.users
    · cases hfind : s.sales.find? (fun r => r.id == input.sale_id) with
      | none =>
        simp [cancelSale, hu, hfind] at h
      | some sale =>
        refine ⟨sale, rfl, ?_⟩
        by_contra hst
        simp [cancelSale, hu, hfind, hst] at h
    · simp [cancelSale, hu] at h
  · intro hu sale hfind hst
    have hu' : input.cancelled_by ∈ s.users := by simpa using hu
    simp [cancelSale, hu', hfind, hst]

/-- Witness for C7 at Scenario D: cancelling the completed sale of
`sAfterSale` shows success implies status `completed`; cancelling a sale
already in `cancelled` status fails with the invalid-state error. -/
theorem C7_cancelSale_requires_completed_witness :
    (∃ sale, sAfterSale.sales.find?
        (fun r => r.id == (⟨10, 1, "why"⟩ : CancelSaleInput).sale_id) = some sale ∧
      sale.status = SaleStatus.completed) ∧
    cancelSale sCancelled ⟨10, 1, "again"⟩ = .error .onlyCompletedCanCancel :=
  ⟨(C7_cancelSale_requires_completed sAfterSale ⟨10, 1, "why"⟩).1 sFinalW cancelledAfterW (by
      norm_num [cancelSale, applyCancelLine, addStock, cancelMovementRow, sAfterSale,
        soldProductW, completedSaleW, saleItemW, outMovW, inMovW, cancelledAfterW, sFinalW, pW]
      rfl),
   (C7_cancelSale_requires_completed sCancelled ⟨10, 1, "again"⟩).2 (by decide)
     cancelledSaleW (by decide) (by decide)⟩

/-- The per-line order written in the amended claim coincides with the
source's per-line validation loop. -/
theorem amendedLineError_eq_check (s : State) (items : List CartItem) :
    amendedLineError s items = exceptError (checkSaleItems s items) := by
  induction items with
  | nil => rfl
  | cons it rest ih =>
    simp only [amendedLineError, checkSaleItems]
    cases hf : findProduct s it.product_id with
    | none => rfl
    | some p =>
      by_cases h1 : p.stock_quantity < it.quantity
      · simp [h1, exceptError]
      · by_cases h2 : p.is_active = false
        · simp [h1, h2, exceptError]
        · simp [h1, h2, ih]

/-- Claim C5 (amended): the error `createSale` reports is the earliest
violated check in the order: payment sufficiency, then cashier existence,
then per line item product existence, then stock sufficiency, then product
active — as computed by `amendedSaleError`, which is written from the
amended claim's words. -/
theorem C5_amended_check_order (s : State) (txn : String) (input : CreateSaleInput) :
    exceptError (createSale s txn input) = amendedSaleError s input := by
  have hs : ((input.items.map (fun it => (it.quantity : Rat) * it.unit_price)).sum : Rat)
      = saleSubtotal input.items := (saleSubtotal_eq_sum input.items).symm
  simp only [createSale, amendedSaleError, hs]
  by_cases h1 : input.amount_paid <
      saleSubtotal input.items - input.discount_amount + input.tax_amount
  · simp [h1, exceptError]
  · simp only [if_neg h1]
    by_cases h2 : input.cashier_id ∈ s.users
    · have h2' : s.users.contains input.cashier_id = true := by simpa using h2
      rw [amendedLineError_eq_check]
      cases hc : checkSaleItems s input.items with
      | error e => simp [h2', h2, hc, exceptError]
      | ok u =>
        cases u
        simp [h2', h2, hc, exceptError]
    · have h2' : s.users.contains input.cashier_id = false := by simpa using h2
      simp [h2', h2, exceptError]

/-- Counterexample to C5 as stated: with no cashier and insufficient
payment the source reports the insufficient-payment error, not
`CashierNotFound` (payment is checked first); and with an inactive
zero-stock product the source reports `InsufficientStock`, not
`ProductInactive` (stock is checked before the active flag). -/
theorem C5_counterexample :
    createSale sNoUsers "T" inputUnderpaid = .error .insufficientPayment ∧
    sNoUsers.users.contains inputUnderpaid.cashier_id = false ∧
    Err.insufficientPayment ≠ Err.cashierNotFound ∧
    createSale sInactive "T" inputInactive = .error (.insufficientStock "P") ∧
    (findProduct sInactive 1).map Product.is_active = some false ∧
    (findProduct sInactive 1).map Product.stock_quantity = some 0 ∧
    Err.insufficientStock "P" ≠ Err.productInactive "P" := by
  refine ⟨?_, by decide, by decide, ?_, by decide, by decide, by decide⟩
  · norm_num [createSale, saleSubtotal, inputUnderpaid, itemOne, sNoUsers, pW]
  · norm_num [createSale, saleSubtotal, checkSaleItems, findProduct, sInactive,
      inputInactive, itemOne]

/-- Witness for C3 at Scenario A's single-product variant (10 × 8.50 paid
exactly) and at an underpaid input (pays 5 for a 10 total). -/
theorem C3_createSale_totals_witness :
    (completedSaleW.subtotal
        = (saleInputW.items.map (fun it => (it.quantity : Rat) * it.unit_price)).sum ∧
      completedSaleW.total_amount
        = completedSaleW.subtotal - saleInputW.discount_amount + saleInputW.tax_amount ∧
      completedSaleW.change_amount = completedSaleW.amount_paid - completedSaleW.total_amount ∧
      completedSaleW.amount_paid = saleInputW.amount_paid ∧
      sAfterSale.sales = sW.sales ++ [completedSaleW]) ∧
    createSale sW "T" inputUnderpaid = .error .insufficientPayment :=
  ⟨(C3_createSale_totals sW "TXN-9" saleInputW).1 sAfterSale completedSaleW (by
      norm_num [createSale, saleSubtotal, checkSaleItems, findProduct, applySaleLine,
        saleItemRowOf, saleMovementRow, addStock, sW, pW, saleInputW, itemTen,
        sAfterSale, soldProductW, completedSaleW, saleItemW, outMovW]
      rfl),
   (C3_createSale_totals sW "T" inputUnderpaid).2 (by
      simp [inputUnderpaid, itemOne]
      norm_num)⟩

/-- Claim C10: `createSale` places no upper bound on `discount_amount`: any
otherwise-valid accepted input whose discount exceeds subtotal + tax yields
a completed sale with negative `total_amount`, the payment check passing
for any positive `amount_paid`, and `change_amount` exceeding `amount_paid`. -/
theorem C10_discount_unbounded (s : State) (txn : String) (input : CreateSaleInput)
    (hvalid : input.zodValid)
    (hcash : s.users.contains input.cashier_id = true)
    (hcheck : checkSaleItems s input.items = .ok ())
    (hdisc : (input.items.map (fun it => (it.quantity : Rat) * it.unit_price)).sum
        + input.tax_amount < input.discount_amount) :
    ∃ s' sale, createSale s txn input = .ok (s', sale) ∧
      sale.total_amount < 0 ∧
      sale.amount_paid < sale.change_amount ∧
      sale.status = .completed := by
  have hsub := saleSubtotal_eq_sum input.items
  have htot : saleSubtotal input.items - input.discount_amount + input.tax_amount < 0 := by
    rw [hsub]; linarith
  have hpay0 : (0 : Rat) < input.amount_paid := hvalid.2.2.2.2
  have hpay : ¬ (input.amount_paid <
      saleSubtotal input.items - input.discount_amount + input.tax_amount) := by
    push_neg
    linarith
  simp only [createSale, if_neg hpay, hcash, hcheck]
  refine ⟨_, _, rfl, htot, ?_, rfl⟩
  show input.amount_paid < input.amount_paid -
    (saleSubtotal input.items - input.discount_amount + input.tax_amount)
  linarith

/-- Witness for C10: discount 200 against subtotal 85 and tax 0, paid 1:
the sale completes with total −115 and change 116. -/
theorem C10_discount_unbounded_witness :
    ∃ s' sale, createSale sW "TXN-D" bigDiscountInput = .ok (s', sale) ∧
      sale.total_amount < 0 ∧
      sale.amount_paid < sale.change_amount ∧
      sale.status = .completed :=
  C10_discount_unbounded sW "TXN-D" bigDiscountInput
    (by norm_num [CreateSaleInput.zodValid, CartItem.zodValid, bigDiscountInput, itemTen])
    (by decide)
    (by norm_num [checkSaleItems, findProduct, sW, pW, bigDiscountInput, itemTen])
    (by simp [bigDiscountInput, itemTen]; norm_num)

/-- Witness for C9 at Scenario E: a supplier-less state rejects the
purchase with `SupplierNotFound`; with the supplier present but line 2
naming the nonexistent product 99, the purchase is rejected with
`ProductNotFound` and nothing is persisted. -/
theorem C9_createPurchase_preconditions_witness :
    createPurchase sNoSupp "PO-1" purchMissingInput = .error (.supplierNotFound 5) ∧
    (∃ pid, createPurchase sW "PO-1" purchMissingInput = .error (.productNotFound pid)) :=
  ⟨(C9_createPurchase_preconditions sNoSupp "PO-1" purchMissingInput).1 (by decide),
   (C9_createPurchase_preconditions sW "PO-1" purchMissingInput).2 (by decide)
     ⟨99, 1, 4⟩ (by decide) (by decide)⟩

end POS
